import Mathlib

/-!
Verification of `src/hvac_stability/cli.py` (kumo-hvac-management), a CLI that
manages Kumo Cloud HVAC devices: credential storage/resolution (`Config`),
device loading and override merging (`HVACManager`), and the `login`, `list`
and `store_device_ip` commands.

The Python code is shallowly embedded: Python dicts become association lists
(`pyGet` models `dict.get` / `in` / `[]`), file I/O becomes explicit
file-state values, raising code becomes `Option`/`Except`, and byte/character
data becomes `List Nat` of byte values / Unicode code points.
-/

namespace Hvac

/-- A cloud device as the tool sees it.  `pykumo.PyKumo` objects expose
`get_serial()` and `get_name()`, and their constructor always sets the
`_address` attribute used for local communication, so the
`hasattr(device, "_address")` test in `_merge_device_config` is true for
every fetched device. -/
structure Device where
  serial : String
  name : String
  address : String
  deriving DecidableEq

/-- A per-serial override entry: the JSON object stored under one serial in
`devices.json` (string fields; the code only reads `"ip_address"`). -/
abbrev Entry := List (String × String)

/-- The `local_device_config` dict: the `"devices"` map of `devices.json`,
keyed by serial. -/
abbrev OverrideMap := List (String × Entry)

/-- Python dict read access (`d[k]` when present / `k in d` / `d.get(k)`) for a
dict represented as an association list: first matching key wins. -/
def pyGet {α : Type} : List (String × α) → String → Option α
  | [], _ => none
  | (k, v) :: rest, key => if k = key then some v else pyGet rest key

/-- Removing every entry with the given key from an override map (used to
state that entries matching no fetched device have no effect). -/
def removeKey (cfg : OverrideMap) (s : String) : OverrideMap :=
  cfg.filter (fun kv => kv.1 ≠ s)

/-- The body of the `for device in self.devices` loop of
`HVACManager._merge_device_config`: if the device's serial is a key of
`local_device_config` and that entry has an `"ip_address"` field, set the
device's `_address` to it; otherwise leave the device unchanged. -/
def apply_override (cfg : OverrideMap) (device : Device) : Device :=
  match pyGet cfg device.serial with
  | none => device
  | some local_config =>
    match pyGet local_config "ip_address" with
    | none => device
    | some ip => { device with address := ip }

/-- `HVACManager._merge_device_config`: run the loop body over the device
list (`device._address` is mutated in place, so the list of devices after the
loop is the pointwise image). -/
def merge_device_config (cfg : OverrideMap) (devices : List Device) : List Device :=
  devices.map (apply_override cfg)

theorem removeKey_cons_self (s : String) (v : Entry) (rest : OverrideMap) :
    removeKey ((s, v) :: rest) s = removeKey rest s := by
  simp [removeKey]

theorem removeKey_cons_ne (s k' : String) (v : Entry) (rest : OverrideMap)
    (h : k' ≠ s) : removeKey ((k', v) :: rest) s = (k', v) :: removeKey rest s := by
  simp [removeKey, h]

theorem pyGet_removeKey (cfg : OverrideMap) (s k : String) (hk : k ≠ s) :
    pyGet (removeKey cfg s) k = pyGet cfg k := by
  induction cfg with
  | nil => rfl
  | cons kv rest ih =>
    obtain ⟨k', v⟩ := kv
    by_cases h : k' = s
    · subst h
      rw [removeKey_cons_self, ih]
      show pyGet rest k = if k' = k then some v else pyGet rest k
      rw [if_neg (fun hkk => hk hkk.symm)]
    · rw [removeKey_cons_ne _ _ _ _ h]
      show (if k' = k then some v else pyGet (removeKey rest s) k)
        = if k' = k then some v else pyGet rest k
      rw [ih]

theorem apply_override_serial (cfg : OverrideMap) (d : Device) :
    (apply_override cfg d).serial = d.serial := by
  unfold apply_override
  split
  · rfl
  · split <;> rfl

/-- C1: after `load_devices`, every fetched device whose serial is in the
override map with an `ip_address` gets that address as its connection
address; devices whose serial is absent keep their original state; and
override entries matching no fetched device can be dropped without changing
the result (they are ignored, not an error — the merge is a total function). -/
theorem c1_merge_overrides (cfg : OverrideMap) (devices : List Device) :
    ((merge_device_config cfg devices).length = devices.length)
    ∧ (∀ i (hi : i < devices.length) (hm : i < (merge_device_config cfg devices).length)
        (e : Entry) (ip : String),
        pyGet cfg (devices.get ⟨i, hi⟩).serial = some e →
        pyGet e "ip_address" = some ip →
        ((merge_device_config cfg devices).get ⟨i, hm⟩).address = ip)
    ∧ (∀ i (hi : i < devices.length) (hm : i < (merge_device_config cfg devices).length),
        pyGet cfg (devices.get ⟨i, hi⟩).serial = none →
        (merge_device_config cfg devices).get ⟨i, hm⟩ = devices.get ⟨i, hi⟩)
    ∧ (∀ s, (∀ d ∈ devices, d.serial ≠ s) →
        merge_device_config (removeKey cfg s) devices = merge_device_config cfg devices) := by
  refine ⟨by simp [merge_device_config], ?_, ?_, ?_⟩
  · intro i hi hm e ip he hip
    simp only [List.get_eq_getElem] at he ⊢
    simp only [merge_device_config, List.getElem_map, apply_override, he, hip]
  · intro i hi hm he
    simp only [List.get_eq_getElem] at he ⊢
    simp only [merge_device_config, List.getElem_map, apply_override, he]
  · intro s hs
    apply List.map_congr_left
    intro d hd
    simp only [apply_override, pyGet_removeKey cfg s d.serial (hs d hd)]

/-- Witness for C1, the spec's scenario: override file
`{"devices":{"SN123":{"ip_address":"10.0.0.5"}}}` and one fetched device with
serial `SN123` — the merged device's address becomes `10.0.0.5`. -/
theorem c1_merge_overrides_witness :
    ((merge_device_config [("SN123", [("ip_address", "10.0.0.5")])]
        [⟨"SN123", "Living Room", "192.168.0.9"⟩]).get ⟨0, by decide⟩).address = "10.0.0.5" :=
  (c1_merge_overrides [("SN123", [("ip_address", "10.0.0.5")])]
      [⟨"SN123", "Living Room", "192.168.0.9"⟩]).2.1 0 (by decide) (by decide)
    [("ip_address", "10.0.0.5")] "10.0.0.5" rfl rfl

/-- C9: the override merge is idempotent — merging an already merged device
list with the same override map yields the same device-address assignment as
merging once. -/
theorem c9_merge_idempotent (cfg : OverrideMap) (devices : List Device) :
    merge_device_config cfg (merge_device_config cfg devices)
      = merge_device_config cfg devices := by
  simp only [merge_device_config, List.map_map]
  apply List.map_congr_left
  intro d _
  show apply_override cfg (apply_override cfg d) = apply_override cfg d
  cases h : pyGet cfg d.serial with
  | none =>
    have hd : apply_override cfg d = d := by simp only [apply_override, h]
    rw [hd, hd]
  | some e =>
    cases hip : pyGet e "ip_address" with
    | none =>
      have hd : apply_override cfg d = d := by simp only [apply_override, h, hip]
      rw [hd, hd]
    | some ip =>
      have hd : apply_override cfg d = { d with address := ip } := by
        simp only [apply_override, h, hip]
      rw [hd]
      simp only [apply_override, h, hip]

/-! ## Device loading (`HVACManager.load_devices`, `_load_local_config`) -/

/-- The overrides file `devices.json` as one command invocation sees it:
missing, present but not valid JSON (`json.loads` raises
`json.JSONDecodeError`), or parsed into a top-level JSON object, modelled as
the association list of its keys (only `"devices"`, an object of per-serial
entries, is ever read). -/
inductive OvFile : Type
  | missing
  | malformed
  | parsed (top : List (String × OverrideMap))
  deriving DecidableEq

/-- `HVACManager._load_local_config`: if the file is missing, do nothing
(keep the current `local_device_config`); otherwise `json.loads` the text —
with no surrounding try/except, so a malformed file raises — and bind
`local_device_config` to `data.get("devices", {})`. -/
def load_local_config (file : OvFile) (current : OverrideMap) :
    Except Unit OverrideMap :=
  match file with
  | .missing => .ok current
  | .malformed => .error ()
  | .parsed top => .ok ((pyGet top "devices").getD [])

/-- The contents of the single class-level default list created once by the
field declaration `devices: list[PyKumo] = []` under `@define`.  attrs stores
that very list object as the attribute default, and the generated
`__init__` assigns the same object to every instance constructed without an
explicit `devices` argument (as `create_with_auth` constructs them), so
`self.devices.append(...)` mutates process-wide shared state. -/
structure ProcState where
  sharedDevices : List Device
  deriving DecidableEq

/-- At class-definition time the shared default list is empty. -/
def initProcState : ProcState := ⟨[]⟩

/-- Per-instance state of an `HVACManager`.  `local_device_config` also has a
shared `{}` default, but the code only ever re-binds it
(`self.local_device_config = ...`), which creates a per-instance attribute,
so it is modelled per instance; it starts out empty. -/
structure Manager where
  local_device_config : OverrideMap
  deriving DecidableEq

/-- Constructing a manager (`cls(config=..., connection=...)`): the shared
default list is aliased, not copied or cleared. -/
def newManager (p : ProcState) : ProcState × Manager := (p, ⟨[]⟩)

/-- `HVACManager.load_devices`: appends every device fetched from the cloud
to `self.devices` — the shared default list — without clearing it, then runs
`_load_local_config` (which raises on a malformed file, after the append has
already happened) and `_merge_device_config`. -/
def load_devices (cloud : List Device) (file : OvFile) (p : ProcState)
    (m : Manager) : Except Unit (ProcState × Manager) := do
  let devs := p.sharedDevices ++ cloud
  let cfg ← load_local_config file m.local_device_config
  pure (⟨merge_device_config cfg devs⟩, ⟨cfg⟩)

theorem countP_merge (cfg : OverrideMap) (devices : List Device) (s : String) :
    (merge_device_config cfg devices).countP (fun d => d.serial == s)
      = devices.countP (fun d => d.serial == s) := by
  unfold merge_device_config
  rw [List.countP_map]
  apply List.countP_congr
  intro d _
  simp [Function.comp, apply_override_serial]

theorem load_devices_count (cloud : List Device) (file : OvFile) (p : ProcState)
    (m : Manager) (p' : ProcState) (m' : Manager)
    (h : load_devices cloud file p m = .ok (p', m')) (s : String) :
    p'.sharedDevices.countP (fun d => d.serial == s)
      = p.sharedDevices.countP (fun d => d.serial == s)
        + cloud.countP (fun d => d.serial == s) := by
  unfold load_devices at h
  cases hcfg : load_local_config file m.local_device_config with
  | error e => rw [hcfg] at h; exact absurd h (by simp [Bind.bind, Except.bind])
  | ok cfg =>
    rw [hcfg] at h
    simp only [Bind.bind, Except.bind, pure, Except.pure, Except.ok.injEq,
      Prod.mk.injEq] at h
    obtain ⟨hp, _⟩ := h
    rw [← hp]
    rw [countP_merge, List.countP_append]

/-- C10: `load_devices` appends the fetched cloud devices to the existing
list without clearing it; the `devices` attrs default is one shared
class-level list, untouched and aliased when a further `HVACManager` is
constructed; consequently a second successful `load_devices` — through the
same instance or any manager constructed in the same process — makes each
cloud device's serial appear at least twice in the directory. -/
theorem c10_shared_devices_duplicate (cloud : List Device) (file : OvFile)
    (p : ProcState) (m m₂ : Manager) :
    (∀ p' m', load_devices cloud file p m = .ok (p', m') →
      ∀ s, p'.sharedDevices.countP (fun d => d.serial == s)
        = p.sharedDevices.countP (fun d => d.serial == s)
          + cloud.countP (fun d => d.serial == s))
    ∧ ((newManager p).1 = p)
    ∧ (∀ p₁ m₁' p₂ m₂', load_devices cloud file p m = .ok (p₁, m₁') →
        load_devices cloud file p₁ m₂ = .ok (p₂, m₂') →
        ∀ d ∈ cloud,
          2 ≤ p₂.sharedDevices.countP (fun d' => d'.serial == d.serial)) := by
  refine ⟨fun p' m' h s => load_devices_count cloud file p m p' m' h s, rfl, ?_⟩
  intro p₁ m₁' p₂ m₂' h1 h2 d hd
  have c1 := load_devices_count cloud file p m p₁ m₁' h1 d.serial
  have c2 := load_devices_count cloud file p₁ m₂ p₂ m₂' h2 d.serial
  have hpos : 0 < cloud.countP (fun d' => d'.serial == d.serial) := by
    rw [List.countP_pos_iff]
    exact ⟨d, hd, by simp⟩
  omega

/-- Witness for C10: one cloud device, no overrides file, fresh process state
— after two `load_devices` calls the device's serial is present twice. -/
theorem c10_shared_devices_duplicate_witness :
    2 ≤ (ProcState.mk [⟨"SN1", "Upstairs", "10.0.0.7"⟩, ⟨"SN1", "Upstairs", "10.0.0.7"⟩]).sharedDevices.countP
        (fun d' => d'.serial == "SN1") :=
  (c10_shared_devices_duplicate [⟨"SN1", "Upstairs", "10.0.0.7"⟩] OvFile.missing
      initProcState ⟨[]⟩ ⟨[]⟩).2.2
    ⟨[⟨"SN1", "Upstairs", "10.0.0.7"⟩]⟩ ⟨[]⟩
    ⟨[⟨"SN1", "Upstairs", "10.0.0.7"⟩, ⟨"SN1", "Upstairs", "10.0.0.7"⟩]⟩ ⟨[]⟩
    rfl rfl ⟨"SN1", "Upstairs", "10.0.0.7"⟩ (by decide)

/-! ## Credential storage: byte-level model

`Config.store_credentials` writes `base64(json.dumps({"username": u,
"password": p}).encode("utf-8"))` to the credentials file;
`Config.load_stored_credentials` reads the file, strips it, base64-decodes,
UTF-8-decodes and `json.loads` it, returning `(None, None)` on any failure.
Python strings are modelled as lists of Unicode code points, bytes as lists
of byte values. -/

/-- A Python `str` as its list of Unicode code points. -/
abbrev PyStr := List Nat

/-- A Unicode scalar value: what a (surrogate-free) Python string may
contain. -/
def validChar (c : Nat) : Bool := c < 1114112 && !(55296 ≤ c && c < 57344)

/-- Lower-case hex digit character of a value `< 16` (`'%04x' % n` pads with
these). -/
def hexDigitLower (d : Nat) : Nat := if d < 10 then 48 + d else 87 + d

/-- Hex-digit value of a character; `json.loads` accepts both cases. -/
def unhexDigit (c : Nat) : Option Nat :=
  if 48 ≤ c ∧ c ≤ 57 then some (c - 48)
  else if 97 ≤ c ∧ c ≤ 102 then some (c - 87)
  else if 65 ≤ c ∧ c ≤ 70 then some (c - 55)
  else none

/-- The four lower-case hex digits of a value `< 0x10000`, as used by the
`\uXXXX` escapes `json.dumps` emits with its default `ensure_ascii=True`. -/
def hex4 (n : Nat) : List Nat :=
  [hexDigitLower (n / 4096 % 16), hexDigitLower (n / 256 % 16),
   hexDigitLower (n / 16 % 16), hexDigitLower (n % 16)]

/-- Reading four hex digits back into a value. -/
def unhex4 (a b c d : Nat) : Option Nat :=
  match unhexDigit a, unhexDigit b, unhexDigit c, unhexDigit d with
  | some d1, some d2, some d3, some d4 => some (4096 * d1 + 256 * d2 + 16 * d3 + d4)
  | _, _, _, _ => none

/-- How `json.dumps` (default `ensure_ascii=True`) renders one character
inside a string literal: `"` and `\` and the short control escapes from its
escape table, other printable ASCII verbatim, and everything else as
`\uXXXX` (a surrogate pair for astral characters). -/
def jsonEscapeChar (c : Nat) : List Nat :=
  if c = 34 then [92, 34]
  else if c = 92 then [92, 92]
  else if c = 8 then [92, 98]
  else if c = 9 then [92, 116]
  else if c = 10 then [92, 110]
  else if c = 12 then [92, 102]
  else if c = 13 then [92, 114]
  else if 32 ≤ c ∧ c ≤ 126 then [c]
  else if c < 65536 then 92 :: 117 :: hex4 c
  else
    (92 :: 117 :: hex4 (55296 + (c - 65536) / 1024))
      ++ (92 :: 117 :: hex4 (56320 + (c - 65536) % 1024))

/-- The escaped body of a JSON string literal. -/
def jsonEscapeStr : PyStr → List Nat
  | [] => []
  | c :: rest => jsonEscapeChar c ++ jsonEscapeStr rest

/-- A serialized JSON string literal: quote, escaped body, quote. -/
def jsonStringLit (s : PyStr) : List Nat := 34 :: (jsonEscapeStr s ++ [34])

/-- The single-character escapes `json.loads` accepts after a backslash
(other than `\uXXXX`). -/
def escChar (e : Nat) : Option Nat :=
  if e = 34 then some 34
  else if e = 92 then some 92
  else if e = 47 then some 47
  else if e = 98 then some 8
  else if e = 102 then some 12
  else if e = 110 then some 10
  else if e = 114 then some 13
  else if e = 116 then some 9
  else none

/-- CPython's `s[end:end + 2] == '\u'` lookahead: does a further `\u` escape
start here? -/
def hasUEscape : List Nat → Bool
  | 92 :: 117 :: _ => true
  | _ => false

/-- `_decode_uXXXX` applied right after a `\u` lookahead succeeded: reads the
`\u` and four hex digits, failing (an `Invalid \uXXXX escape` error) when
fewer than four hex digits follow. -/
def readUEscape : List Nat → Option (Nat × List Nat)
  | 92 :: 117 :: a :: b :: c :: d :: rest => (unhex4 a b c d).map (fun n => (n, rest))
  | _ => none

theorem readUEscape_length (l : List Nat) (n : Nat) (r : List Nat)
    (h : readUEscape l = some (n, r)) : r.length + 6 = l.length := by
  unfold readUEscape at h
  split at h
  · simp only [Option.map_eq_some'] at h
    obtain ⟨n', _, h2⟩ := h
    obtain ⟨rfl, rfl⟩ : n' = n ∧ _ = r := Prod.mk.injEq .. ▸ h2
    simp
  · exact absurd h (by simp)

/-- `_decode_uXXXX`: read exactly four hex digits into a value. -/
def readHex4 : List Nat → Option (Nat × List Nat)
  | a :: b :: c :: d :: rest => (unhex4 a b c d).map (fun n => (n, rest))
  | _ => none

/-- The `\uXXXX` part of `json.loads` escape handling (input starts after the
`\u`): a high surrogate followed by the `\u` lookahead commits to four more
hex digits and combines a following low surrogate into one astral character;
a lone surrogate value is kept as is. -/
def parseUEscapeBody (rest2 : List Nat) : Option (Nat × List Nat) :=
  match readHex4 rest2 with
  | none => none
  | some (n, rest3) =>
    if 55296 ≤ n ∧ n < 56320 then
      if hasUEscape rest3 then
        match readUEscape rest3 with
        | none => none
        | some (n2, rest4) =>
          if 56320 ≤ n2 ∧ n2 < 57344 then
            some (65536 + (n - 55296) * 1024 + (n2 - 56320), rest4)
          else some (n, rest3)
      else some (n, rest3)
    else some (n, rest3)

/-- Handling of one backslash escape by `json.loads` (the input starts right
after the backslash): a `\uXXXX` escape or one of the single-character table
escapes.  Returns the decoded character and the remaining input; `none` is a
scanning error. -/
def parseEscape (l : List Nat) : Option (Nat × List Nat) :=
  match l with
  | [] => none
  | e :: rest2 =>
    if e = 117 then parseUEscapeBody rest2
    else (escChar e).map (fun ch => (ch, rest2))

theorem readHex4_length (l : List Nat) (n : Nat) (r : List Nat)
    (h : readHex4 l = some (n, r)) : r.length + 4 = l.length := by
  rw [readHex4.eq_def] at h
  split at h
  · simp only [Option.map_eq_some'] at h
    obtain ⟨n', _, h2⟩ := h
    cases h2
    simp
  · exact absurd h (by simp)

theorem pb_none (l : List Nat) (hh : readHex4 l = none) :
    parseUEscapeBody l = none := by
  unfold parseUEscapeBody
  rw [hh]

theorem pb_notsur (l : List Nat) (n : Nat) (r : List Nat)
    (hh : readHex4 l = some (n, r)) (hns : ¬(55296 ≤ n ∧ n < 56320)) :
    parseUEscapeBody l = some (n, r) := by
  unfold parseUEscapeBody
  rw [hh]
  simp [hns]

theorem pb_sur_nou (l : List Nat) (n : Nat) (r : List Nat)
    (hh : readHex4 l = some (n, r)) (hsr : 55296 ≤ n ∧ n < 56320)
    (hu : hasUEscape r = false) :
    parseUEscapeBody l = some (n, r) := by
  unfold parseUEscapeBody
  rw [hh]
  simp [hsr, hu]

theorem pb_sur_bad (l : List Nat) (n : Nat) (r : List Nat)
    (hh : readHex4 l = some (n, r)) (hsr : 55296 ≤ n ∧ n < 56320)
    (hu : hasUEscape r = true) (hre : readUEscape r = none) :
    parseUEscapeBody l = none := by
  unfold parseUEscapeBody
  rw [hh]
  simp [hsr, hu, hre]

theorem pb_sur_lone (l : List Nat) (n : Nat) (r : List Nat) (n2 : Nat)
    (r4 : List Nat) (hh : readHex4 l = some (n, r)) (hsr : 55296 ≤ n ∧ n < 56320)
    (hu : hasUEscape r = true) (hre : readUEscape r = some (n2, r4))
    (hnl : ¬(56320 ≤ n2 ∧ n2 < 57344)) :
    parseUEscapeBody l = some (n, r) := by
  unfold parseUEscapeBody
  rw [hh]
  simp [hsr, hu, hre, hnl]

theorem pb_pair (l : List Nat) (n : Nat) (r : List Nat) (n2 : Nat)
    (r4 : List Nat) (hh : readHex4 l = some (n, r)) (hsr : 55296 ≤ n ∧ n < 56320)
    (hu : hasUEscape r = true) (hre : readUEscape r = some (n2, r4))
    (hlr : 56320 ≤ n2 ∧ n2 < 57344) :
    parseUEscapeBody l = some (65536 + (n - 55296) * 1024 + (n2 - 56320), r4) := by
  unfold parseUEscapeBody
  rw [hh]
  simp [hsr, hu, hre, hlr]

theorem parseUEscapeBody_length (l : List Nat) (p : Nat × List Nat)
    (h : parseUEscapeBody l = some p) : p.2.length + 4 ≤ l.length := by
  cases hh4 : readHex4 l with
  | none =>
    rw [pb_none l hh4] at h
    exact absurd h (by simp)
  | some nr =>
    obtain ⟨n, rest3⟩ := nr
    have h4 := readHex4_length _ _ _ hh4
    by_cases hsr : 55296 ≤ n ∧ n < 56320
    · by_cases hu : hasUEscape rest3 = true
      · cases hre : readUEscape rest3 with
        | none =>
          rw [pb_sur_bad l n rest3 hh4 hsr hu hre] at h
          exact absurd h (by simp)
        | some nr2 =>
          obtain ⟨n2, rest4⟩ := nr2
          have h6 := readUEscape_length _ _ _ hre
          by_cases hlr : 56320 ≤ n2 ∧ n2 < 57344
          · rw [pb_pair l n rest3 n2 rest4 hh4 hsr hu hre hlr] at h
            obtain rfl := (Option.some.inj h).symm
            show rest4.length + 4 ≤ l.length
            omega
          · rw [pb_sur_lone l n rest3 n2 rest4 hh4 hsr hu hre hlr] at h
            obtain rfl := (Option.some.inj h).symm
            show rest3.length + 4 ≤ l.length
            omega
      · rw [pb_sur_nou l n rest3 hh4 hsr (by simpa using hu)] at h
        obtain rfl := (Option.some.inj h).symm
        show rest3.length + 4 ≤ l.length
        omega
    · rw [pb_notsur l n rest3 hh4 hsr] at h
      obtain rfl := (Option.some.inj h).symm
      show rest3.length + 4 ≤ l.length
      omega

theorem parseEscape_length (l : List Nat) (p : Nat × List Nat)
    (h : parseEscape l = some p) : p.2.length < l.length := by
  rw [parseEscape.eq_def] at h
  split at h
  · exact absurd h (by simp)
  · rename_i e rest2
    split at h
    · have := parseUEscapeBody_length _ _ h
      simp only [List.length_cons]
      omega
    · simp only [Option.map_eq_some'] at h
      obtain ⟨ch, _, h2⟩ := h
      cases h2
      simp

/-- `json.loads` string scanning (CPython `scanstring`, `strict=True`) after
the opening quote: literal characters up to the closing quote, raw control
characters rejected, backslash escapes handled by `parseEscape`.  Returns the
decoded string and the input remaining after the closing quote. -/
def parseStrBody : List Nat → Option (PyStr × List Nat)
  | [] => none
  | c :: rest =>
    if c = 34 then some ([], rest)
    else if c = 92 then
      match h : parseEscape rest with
      | none => none
      | some chrest => (parseStrBody chrest.2).map (fun sr => (chrest.1 :: sr.1, sr.2))
    else if c < 32 then none
    else (parseStrBody rest).map (fun sr => (c :: sr.1, sr.2))
termination_by l => l.length
decreasing_by
  · have := parseEscape_length _ _ h
    simp only [List.length_cons]
    omega
  · simp only [List.length_cons]
    omega

theorem unhexDigit_hexDigitLower (d : Nat) (h : d < 16) :
    unhexDigit (hexDigitLower d) = some d := by
  interval_cases d <;> rfl

theorem unhex4_hex4 (n : Nat) (h : n < 65536) :
    unhex4 (hexDigitLower (n / 4096 % 16)) (hexDigitLower (n / 256 % 16))
      (hexDigitLower (n / 16 % 16)) (hexDigitLower (n % 16)) = some n := by
  unfold unhex4
  rw [unhexDigit_hexDigitLower _ (by omega), unhexDigit_hexDigitLower _ (by omega),
    unhexDigit_hexDigitLower _ (by omega), unhexDigit_hexDigitLower _ (by omega)]
  exact congrArg some (by omega)

theorem parseStrBody_quote (rest : List Nat) :
    parseStrBody (34 :: rest) = some ([], rest) := by
  rw [parseStrBody]
  simp

theorem parseStrBody_backslash (rest : List Nat) (ch : Nat) (r : List Nat)
    (hpe : parseEscape rest = some (ch, r)) :
    parseStrBody (92 :: rest) = (parseStrBody r).map (fun sr => (ch :: sr.1, sr.2)) := by
  rw [parseStrBody]
  rw [if_neg (by decide), if_pos rfl]
  split
  · rename_i heq
    rw [heq] at hpe
    exact absurd hpe (by simp)
  · rename_i chrest heq
    rw [heq] at hpe
    injection hpe with hpe
    rw [hpe]

theorem parseStrBody_lit (c : Nat) (rest : List Nat) (h34 : ¬c = 34)
    (h92 : ¬c = 92) (hge : ¬c < 32) :
    parseStrBody (c :: rest) = (parseStrBody rest).map (fun sr => (c :: sr.1, sr.2)) := by
  rw [parseStrBody, if_neg h34, if_neg h92, if_neg hge]

theorem parseEscape_table (e : Nat) (he : ¬e = 117) (X : List Nat) :
    parseEscape (e :: X) = (escChar e).map (fun ch => (ch, X)) := by
  unfold parseEscape
  simp [he]

theorem parseEscape_u (rest2 : List Nat) :
    parseEscape (117 :: rest2) = parseUEscapeBody rest2 := by
  unfold parseEscape
  simp

theorem readHex4_hex4 (n : Nat) (h : n < 65536) (X : List Nat) :
    readHex4 (hex4 n ++ X) = some (n, X) := by
  simp only [hex4, List.cons_append, List.nil_append]
  rw [readHex4.eq_def]
  simp [unhex4_hex4 n h]

theorem readUEscape_hex4 (n : Nat) (h : n < 65536) (X : List Nat) :
    readUEscape (92 :: 117 :: (hex4 n ++ X)) = some (n, X) := by
  simp only [hex4, List.cons_append, List.nil_append]
  rw [readUEscape.eq_def]
  simp [unhex4_hex4 n h]

theorem parseEscape_u_bmp (n : Nat) (h : n < 65536)
    (hns : ¬(55296 ≤ n ∧ n < 56320)) (X : List Nat) :
    parseEscape (117 :: (hex4 n ++ X)) = some (n, X) := by
  rw [parseEscape_u]
  exact pb_notsur _ n X (readHex4_hex4 n h X) hns

theorem parseEscape_u_astral (c : Nat) (h1 : 65536 ≤ c) (h2 : c < 1114112)
    (X : List Nat) :
    parseEscape (117 :: (hex4 (55296 + (c - 65536) / 1024)
      ++ (92 :: 117 :: (hex4 (56320 + (c - 65536) % 1024) ++ X)))) = some (c, X) := by
  rw [parseEscape_u]
  have hres := pb_pair
    (hex4 (55296 + (c - 65536) / 1024)
      ++ (92 :: 117 :: (hex4 (56320 + (c - 65536) % 1024) ++ X)))
    (55296 + (c - 65536) / 1024)
    (92 :: 117 :: (hex4 (56320 + (c - 65536) % 1024) ++ X))
    (56320 + (c - 65536) % 1024) X
    (readHex4_hex4 _ (by omega) _) (by omega) rfl
    (readUEscape_hex4 _ (by omega) X) (by omega)
  rw [hres]
  have hc : 65536 + (55296 + (c - 65536) / 1024 - 55296) * 1024
      + (56320 + (c - 65536) % 1024 - 56320) = c := by omega
  rw [hc]

theorem parseStrBody_escape (s : PyStr) (tail : List Nat)
    (hs : ∀ c ∈ s, validChar c = true) :
    parseStrBody (jsonEscapeStr s ++ 34 :: tail) = some (s, tail) := by
  induction s with
  | nil =>
    simp only [jsonEscapeStr, List.nil_append]
    exact parseStrBody_quote tail
  | cons c cs ih =>
    have hc : validChar c = true := hs c (List.mem_cons_self c cs)
    have hR : parseStrBody (jsonEscapeStr cs ++ 34 :: tail) = some (cs, tail) :=
      ih (fun x hx => hs x (List.mem_cons_of_mem c hx))
    simp only [validChar, Bool.and_eq_true, decide_eq_true_eq, Bool.not_eq_true',
      Bool.and_eq_false_iff, decide_eq_false_iff_not, not_and, not_lt] at hc
    have hlt : c < 1114112 := hc.1
    have hsur : ¬(55296 ≤ c ∧ c < 57344) := by
      intro ⟨ha, hb⟩
      rcases hc.2 with h | h
      · omega
      · omega
    simp only [jsonEscapeStr, List.append_assoc]
    by_cases h34 : c = 34
    · subst h34
      rw [show jsonEscapeChar 34 = [92, 34] from by decide, List.cons_append,
        List.cons_append, List.nil_append,
        parseStrBody_backslash _ 34 _ (by rw [parseEscape_table _ (by decide)]; rfl), hR]
      rfl
    by_cases h92 : c = 92
    · subst h92
      rw [show jsonEscapeChar 92 = [92, 92] from by decide, List.cons_append,
        List.cons_append, List.nil_append,
        parseStrBody_backslash _ 92 _ (by rw [parseEscape_table _ (by decide)]; rfl), hR]
      rfl
    by_cases h8 : c = 8
    · subst h8
      rw [show jsonEscapeChar 8 = [92, 98] from by decide, List.cons_append,
        List.cons_append, List.nil_append,
        parseStrBody_backslash _ 8 _ (by rw [parseEscape_table _ (by decide)]; rfl), hR]
      rfl
    by_cases h9 : c = 9
    · subst h9
      rw [show jsonEscapeChar 9 = [92, 116] from by decide, List.cons_append,
        List.cons_append, List.nil_append,
        parseStrBody_backslash _ 9 _ (by rw [parseEscape_table _ (by decide)]; rfl), hR]
      rfl
    by_cases h10 : c = 10
    · subst h10
      rw [show jsonEscapeChar 10 = [92, 110] from by decide, List.cons_append,
        List.cons_append, List.nil_append,
        parseStrBody_backslash _ 10 _ (by rw [parseEscape_table _ (by decide)]; rfl), hR]
      rfl
    by_cases h12 : c = 12
    · subst h12
      rw [show jsonEscapeChar 12 = [92, 102] from by decide, List.cons_append,
        List.cons_append, List.nil_append,
        parseStrBody_backslash _ 12 _ (by rw [parseEscape_table _ (by decide)]; rfl), hR]
      rfl
    by_cases h13 : c = 13
    · subst h13
      rw [show jsonEscapeChar 13 = [92, 114] from by decide, List.cons_append,
        List.cons_append, List.nil_append,
        parseStrBody_backslash _ 13 _ (by rw [parseEscape_table _ (by decide)]; rfl), hR]
      rfl
    by_cases hpr : 32 ≤ c ∧ c ≤ 126
    · have he : jsonEscapeChar c = [c] := by
        simp [jsonEscapeChar, h34, h92, h8, h9, h10, h12, h13, hpr]
      rw [he, List.cons_append, List.nil_append,
        parseStrBody_lit c _ h34 h92 (by omega), hR]
      rfl
    by_cases hbmp : c < 65536
    · have he : jsonEscapeChar c = 92 :: 117 :: hex4 c := by
        simp [jsonEscapeChar, h34, h92, h8, h9, h10, h12, h13, hpr, hbmp]
      have hns : ¬(55296 ≤ c ∧ c < 56320) := fun ⟨ha, hb⟩ => hsur ⟨ha, by omega⟩
      rw [he, List.cons_append, List.cons_append,
        parseStrBody_backslash _ c _ (parseEscape_u_bmp c hbmp hns _), hR]
      rfl
    · have he : jsonEscapeChar c
          = (92 :: 117 :: hex4 (55296 + (c - 65536) / 1024))
            ++ (92 :: 117 :: hex4 (56320 + (c - 65536) % 1024)) := by
        simp [jsonEscapeChar, h34, h92, h8, h9, h10, h12, h13, hpr, hbmp]
      rw [he]
      simp only [List.cons_append, List.append_assoc]
      rw [parseStrBody_backslash _ c _
        (parseEscape_u_astral c (by omega) hlt _), hR]
      rfl

/-! ## base64 (`base64.b64encode` / `base64.b64decode`) -/

/-- The base64 character (as a byte) of a six-bit value. -/
def b64CharOfSix (n : Nat) : Nat :=
  if n < 26 then 65 + n
  else if n < 52 then 71 + n
  else if n < 62 then n - 4
  else if n = 62 then 43
  else 47

/-- The six-bit value of a base64 alphabet byte. -/
def sixOfB64Char (c : Nat) : Option Nat :=
  if 65 ≤ c ∧ c ≤ 90 then some (c - 65)
  else if 97 ≤ c ∧ c ≤ 122 then some (c - 71)
  else if 48 ≤ c ∧ c ≤ 57 then some (c + 4)
  else if c = 43 then some 62
  else if c = 47 then some 63
  else none

/-- `base64.b64encode`: three bytes to four alphabet characters, `=`-padding
(byte 61) for a short final group. -/
def b64encode : List Nat → List Nat
  | [] => []
  | [b1] => [b64CharOfSix (b1 / 4), b64CharOfSix (b1 % 4 * 16), 61, 61]
  | [b1, b2] => [b64CharOfSix (b1 / 4), b64CharOfSix (b1 % 4 * 16 + b2 / 16),
      b64CharOfSix (b2 % 16 * 4), 61]
  | b1 :: b2 :: b3 :: rest =>
      b64CharOfSix (b1 / 4) :: b64CharOfSix (b1 % 4 * 16 + b2 / 16)
        :: b64CharOfSix (b2 % 16 * 4 + b3 / 64) :: b64CharOfSix (b3 % 64)
        :: b64encode rest

/-- A byte `base64.b64decode` (with its default `validate=False`) keeps: an
alphabet byte or the padding byte `=`; every other byte is discarded before
decoding. -/
def isB64Byte (c : Nat) : Bool := (sixOfB64Char c).isSome || c = 61

/-- Quad-wise decoding after the discard pass: four alphabet characters to
three bytes, `=`-padding accepted in the final quad only; a leftover of one
to three characters is a `binascii.Error` (incorrect padding). -/
def b64decodeQuads : List Nat → Option (List Nat)
  | [] => some []
  | c1 :: c2 :: c3 :: c4 :: rest =>
    match sixOfB64Char c1, sixOfB64Char c2 with
    | some s1, some s2 =>
      if c3 = 61 then
        if c4 = 61 ∧ rest = [] then some [s1 * 4 + s2 / 16] else none
      else
        match sixOfB64Char c3 with
        | some s3 =>
          if c4 = 61 then
            if rest = [] then some [s1 * 4 + s2 / 16, s2 % 16 * 16 + s3 / 4] else none
          else
            match sixOfB64Char c4 with
            | some s4 =>
              (b64decodeQuads rest).map
                (fun tl => (s1 * 4 + s2 / 16) :: (s2 % 16 * 16 + s3 / 4)
                  :: (s3 % 4 * 64 + s4) :: tl)
            | none => none
        | none => none
    | _, _ => none
  | _ => none

/-- `base64.b64decode(s)` on ASCII input: discard non-alphabet bytes, then
decode quads. -/
def b64decode (l : List Nat) : Option (List Nat) :=
  b64decodeQuads (l.filter isB64Byte)

theorem sixOfB64Char_b64CharOfSix (n : Nat) (h : n < 64) :
    sixOfB64Char (b64CharOfSix n) = some n := by
  interval_cases n <;> rfl

theorem b64CharOfSix_ne_eq (n : Nat) (h : n < 64) : b64CharOfSix n ≠ 61 := by
  unfold b64CharOfSix
  split_ifs <;> omega

theorem isB64Byte_b64CharOfSix (n : Nat) (h : n < 64) :
    isB64Byte (b64CharOfSix n) = true := by
  simp [isB64Byte, sixOfB64Char_b64CharOfSix n h]

theorem b64encode_bytes : ∀ (bs : List Nat), (∀ b ∈ bs, b < 256) →
    ∀ c ∈ b64encode bs, isB64Byte c = true
  | [], _ => by simp [b64encode]
  | [b1], h => by
    have hb1 : b1 < 256 := h b1 (by simp)
    intro c hc
    rw [show b64encode [b1]
      = [b64CharOfSix (b1 / 4), b64CharOfSix (b1 % 4 * 16), 61, 61] from rfl] at hc
    simp only [List.mem_cons, List.not_mem_nil, or_false] at hc
    rcases hc with rfl | rfl | rfl | rfl
    · exact isB64Byte_b64CharOfSix _ (by omega)
    · exact isB64Byte_b64CharOfSix _ (by omega)
    · decide
    · decide
  | [b1, b2], h => by
    have hb1 : b1 < 256 := h b1 (by simp)
    have hb2 : b2 < 256 := h b2 (by simp)
    intro c hc
    rw [show b64encode [b1, b2]
      = [b64CharOfSix (b1 / 4), b64CharOfSix (b1 % 4 * 16 + b2 / 16),
         b64CharOfSix (b2 % 16 * 4), 61] from rfl] at hc
    simp only [List.mem_cons, List.not_mem_nil, or_false] at hc
    rcases hc with rfl | rfl | rfl | rfl
    · exact isB64Byte_b64CharOfSix _ (by omega)
    · exact isB64Byte_b64CharOfSix _ (by omega)
    · exact isB64Byte_b64CharOfSix _ (by omega)
    · decide
  | b1 :: b2 :: b3 :: rest, h => by
    have hb1 : b1 < 256 := h b1 (by simp)
    have hb2 : b2 < 256 := h b2 (by simp)
    have hb3 : b3 < 256 := h b3 (by simp)
    have ih := b64encode_bytes rest (fun b hb => h b (by simp [hb]))
    intro c hc
    rw [show b64encode (b1 :: b2 :: b3 :: rest)
      = b64CharOfSix (b1 / 4) :: b64CharOfSix (b1 % 4 * 16 + b2 / 16)
        :: b64CharOfSix (b2 % 16 * 4 + b3 / 64) :: b64CharOfSix (b3 % 64)
        :: b64encode rest from rfl] at hc
    simp only [List.mem_cons] at hc
    rcases hc with rfl | rfl | rfl | rfl | hc
    · exact isB64Byte_b64CharOfSix _ (by omega)
    · exact isB64Byte_b64CharOfSix _ (by omega)
    · exact isB64Byte_b64CharOfSix _ (by omega)
    · exact isB64Byte_b64CharOfSix _ (by omega)
    · exact ih c hc

theorem b64decodeQuads_encode : ∀ (bs : List Nat), (∀ b ∈ bs, b < 256) →
    b64decodeQuads (b64encode bs) = some bs
  | [], _ => rfl
  | [b1], h => by
    have hb1 : b1 < 256 := h b1 (by simp)
    rw [show b64encode [b1]
      = [b64CharOfSix (b1 / 4), b64CharOfSix (b1 % 4 * 16), 61, 61] from rfl]
    rw [b64decodeQuads.eq_def]
    simp only [sixOfB64Char_b64CharOfSix _ (show b1 / 4 < 64 by omega),
      sixOfB64Char_b64CharOfSix _ (show b1 % 4 * 16 < 64 by omega)]
    simp
    omega
  | [b1, b2], h => by
    have hb1 : b1 < 256 := h b1 (by simp)
    have hb2 : b2 < 256 := h b2 (by simp)
    rw [show b64encode [b1, b2]
      = [b64CharOfSix (b1 / 4), b64CharOfSix (b1 % 4 * 16 + b2 / 16),
         b64CharOfSix (b2 % 16 * 4), 61] from rfl]
    rw [b64decodeQuads.eq_def]
    simp only [sixOfB64Char_b64CharOfSix _ (show b1 / 4 < 64 by omega),
      sixOfB64Char_b64CharOfSix _ (show b1 % 4 * 16 + b2 / 16 < 64 by omega),
      sixOfB64Char_b64CharOfSix _ (show b2 % 16 * 4 < 64 by omega),
      b64CharOfSix_ne_eq _ (show b2 % 16 * 4 < 64 by omega)]
    simp
    omega
  | b1 :: b2 :: b3 :: rest, h => by
    have hb1 : b1 < 256 := h b1 (by simp)
    have hb2 : b2 < 256 := h b2 (by simp)
    have hb3 : b3 < 256 := h b3 (by simp)
    have ih := b64decodeQuads_encode rest (fun b hb => h b (by simp [hb]))
    rw [show b64encode (b1 :: b2 :: b3 :: rest)
      = b64CharOfSix (b1 / 4) :: b64CharOfSix (b1 % 4 * 16 + b2 / 16)
        :: b64CharOfSix (b2 % 16 * 4 + b3 / 64) :: b64CharOfSix (b3 % 64)
        :: b64encode rest from rfl]
    rw [b64decodeQuads.eq_def]
    simp only [sixOfB64Char_b64CharOfSix _ (show b1 / 4 < 64 by omega),
      sixOfB64Char_b64CharOfSix _ (show b1 % 4 * 16 + b2 / 16 < 64 by omega),
      sixOfB64Char_b64CharOfSix _ (show b2 % 16 * 4 + b3 / 64 < 64 by omega),
      sixOfB64Char_b64CharOfSix _ (show b3 % 64 < 64 by omega),
      b64CharOfSix_ne_eq _ (show b2 % 16 * 4 + b3 / 64 < 64 by omega),
      b64CharOfSix_ne_eq _ (show b3 % 64 < 64 by omega)]
    simp [ih]
    omega

/-- Round trip through the byte-level base64 model: decoding an encoding of
any byte string gives the bytes back. -/
theorem b64decode_encode (bs : List Nat) (h : ∀ b ∈ bs, b < 256) :
    b64decode (b64encode bs) = some bs := by
  unfold b64decode
  rw [List.filter_eq_self.mpr (b64encode_bytes bs h)]
  exact b64decodeQuads_encode bs h

/-! ## UTF-8, `str.strip` and `str.encode("ascii")` -/

/-- UTF-8 encoding of one Unicode scalar value (`str.encode("utf-8")`). -/
def utf8EncodeChar (c : Nat) : List Nat :=
  if c < 128 then [c]
  else if c < 2048 then [192 + c / 64, 128 + c % 64]
  else if c < 65536 then [224 + c / 4096, 128 + c / 64 % 64, 128 + c % 64]
  else [240 + c / 262144, 128 + c / 4096 % 64, 128 + c / 64 % 64, 128 + c % 64]

/-- `str.encode("utf-8")` over a whole string. -/
def utf8Encode : PyStr → List Nat
  | [] => []
  | c :: rest => utf8EncodeChar c ++ utf8Encode rest

/-- Reading one UTF-8 continuation byte (`0x80`–`0xBF`), returning its
six payload bits. -/
def takeCont : List Nat → Option (Nat × List Nat)
  | b :: rest => if 128 ≤ b ∧ b < 192 then some (b - 128, rest) else none
  | [] => none

theorem takeCont_length (l : List Nat) (x : Nat) (r : List Nat)
    (h : takeCont l = some (x, r)) : r.length + 1 = l.length := by
  cases l with
  | nil => exact absurd h (by simp [takeCont])
  | cons b rest =>
    rw [takeCont] at h
    split_ifs at h
    have hr : rest = r := congrArg Prod.snd (Option.some.inj h)
    rw [← hr]
    simp

/-- One multi-byte step of strict UTF-8 decoding: given a lead byte `≥ 0x80`
and the following bytes, decode one scalar value, rejecting stray or missing
continuation bytes, overlong forms, surrogates, and values past `U+10FFFF`. -/
def utf8DecodeMulti (b : Nat) (rest : List Nat) : Option (Nat × List Nat) :=
  if b < 194 then none
  else if b < 224 then
    match takeCont rest with
    | some (x2, rest2) => some ((b - 192) * 64 + x2, rest2)
    | none => none
  else if b < 240 then
    match takeCont rest with
    | some (x2, r1) =>
      match takeCont r1 with
      | some (x3, rest2) =>
        let c := (b - 224) * 4096 + x2 * 64 + x3
        if 2048 ≤ c ∧ ¬(55296 ≤ c ∧ c < 57344) then some (c, rest2) else none
      | none => none
    | none => none
  else if b < 245 then
    match takeCont rest with
    | some (x2, r1) =>
      match takeCont r1 with
      | some (x3, r2) =>
        match takeCont r2 with
        | some (x4, rest2) =>
          let c := (b - 240) * 262144 + x2 * 4096 + x3 * 64 + x4
          if 65536 ≤ c ∧ c < 1114112 then some (c, rest2) else none
        | none => none
      | none => none
    | none => none
  else none

theorem utf8DecodeMulti_length (b : Nat) (rest : List Nat) (p : Nat × List Nat)
    (h : utf8DecodeMulti b rest = some p) : p.2.length < rest.length := by
  unfold utf8DecodeMulti at h
  by_cases h1 : b < 194
  · rw [if_pos h1] at h
    exact absurd h (by simp)
  rw [if_neg h1] at h
  by_cases h2 : b < 224
  · rw [if_pos h2] at h
    split at h
    · rename_i x2 rest2 hc1
      have hl1 := takeCont_length _ _ _ hc1
      cases h
      simp only
      omega
    · exact absurd h (by simp)
  rw [if_neg h2] at h
  by_cases h3 : b < 240
  · rw [if_pos h3] at h
    split at h
    · rename_i x2 r1 hc1
      have hl1 := takeCont_length _ _ _ hc1
      split at h
      · rename_i x3 rest2 hc2
        have hl2 := takeCont_length _ _ _ hc2
        dsimp only at h
        split_ifs at h
        cases h
        simp only
        omega
      · exact absurd h (by simp)
    · exact absurd h (by simp)
  rw [if_neg h3] at h
  by_cases h4 : b < 245
  · rw [if_pos h4] at h
    split at h
    · rename_i x2 r1 hc1
      have hl1 := takeCont_length _ _ _ hc1
      split at h
      · rename_i x3 r2 hc2
        have hl2 := takeCont_length _ _ _ hc2
        split at h
        · rename_i x4 rest2 hc3
          have hl3 := takeCont_length _ _ _ hc3
          dsimp only at h
          split_ifs at h
          cases h
          simp only
          omega
        · exact absurd h (by simp)
      · exact absurd h (by simp)
    · exact absurd h (by simp)
  rw [if_neg h4] at h
  exact absurd h (by simp)

/-- `bytes.decode("utf-8")` (strict, as Python defaults): ASCII bytes pass
through; multi-byte sequences are handled by `utf8DecodeMulti`; anything else
raises (`none`). -/
def utf8Decode : List Nat → Option PyStr
  | [] => some []
  | b :: rest =>
    if b < 128 then (utf8Decode rest).map (fun s => b :: s)
    else
      match h : utf8DecodeMulti b rest with
      | none => none
      | some crest => (utf8Decode crest.2).map (fun s => crest.1 :: s)
termination_by l => l.length
decreasing_by
  · simp only [List.length_cons]
    omega
  · have := utf8DecodeMulti_length _ _ _ h
    simp only [List.length_cons]
    omega

/-- UTF-8 encoding of an all-ASCII string is the identity on code points. -/
theorem utf8Encode_ascii (s : PyStr) (h : ∀ c ∈ s, c < 128) :
    utf8Encode s = s := by
  induction s with
  | nil => rfl
  | cons c rest ih =>
    have hc : c < 128 := h c (by simp)
    rw [utf8Encode, utf8EncodeChar, if_pos hc,
      ih (fun x hx => h x (by simp [hx]))]
    rfl

theorem utf8Decode_nil : utf8Decode [] = some [] := by
  rw [utf8Decode]

theorem utf8Decode_cons_ascii (b : Nat) (rest : List Nat) (hb : b < 128) :
    utf8Decode (b :: rest) = (utf8Decode rest).map (fun s => b :: s) := by
  rw [utf8Decode, if_pos hb]

/-- Strict UTF-8 decoding of all-ASCII bytes is the identity. -/
theorem utf8Decode_ascii (bs : List Nat) (h : ∀ b ∈ bs, b < 128) :
    utf8Decode bs = some bs := by
  induction bs with
  | nil => exact utf8Decode_nil
  | cons b rest ih =>
    have hb : b < 128 := h b (by simp)
    rw [utf8Decode_cons_ascii b rest hb, ih (fun x hx => h x (by simp [hx])),
      Option.map_some']

/-- Every byte produced by the UTF-8 encoder of a valid string is a byte. -/
theorem utf8Encode_bytes (s : PyStr) (h : ∀ c ∈ s, validChar c = true) :
    ∀ b ∈ utf8Encode s, b < 256 := by
  induction s with
  | nil => simp [utf8Encode]
  | cons c rest ih =>
    have hc : validChar c = true := h c (by simp)
    have hc' : c < 1114112 := by
      simp only [validChar, Bool.and_eq_true, decide_eq_true_eq] at hc
      exact hc.1
    intro b hb
    rw [utf8Encode] at hb
    rcases List.mem_append.mp hb with hb | hb
    · unfold utf8EncodeChar at hb
      split_ifs at hb <;> simp only [List.mem_cons, List.not_mem_nil, or_false] at hb <;>
        rcases hb with rfl | hb <;> first | omega | (rcases hb with rfl | hb <;>
          first | omega | (rcases hb with rfl | hb <;> first | omega | (rcases hb with rfl | hb <;> omega)))
    · exact ih (fun x hx => h x (by simp [hx])) b hb

/-- The whitespace test of `str.strip()`, restricted to the code points that
matter here: every byte of the stored base64 payload is outside this set and
outside the full Unicode whitespace set alike. -/
def isPyWs (c : Nat) : Bool :=
  (9 ≤ c && c ≤ 13) || (28 ≤ c && c ≤ 32) || c = 133 || c = 160

/-- `str.strip()`: drop whitespace from both ends. -/
def pyStrip (l : List Nat) : List Nat :=
  ((l.dropWhile isPyWs).reverse.dropWhile isPyWs).reverse

theorem dropWhile_eq_self_of_not (p : Nat → Bool) (l : List Nat)
    (h : ∀ c ∈ l, p c = false) : l.dropWhile p = l := by
  cases l with
  | nil => rfl
  | cons c rest => rw [List.dropWhile_cons_of_neg (by simp [h c (by simp)])]

/-- `strip` does not change a string with no whitespace anywhere. -/
theorem pyStrip_eq_self (l : List Nat) (h : ∀ c ∈ l, isPyWs c = false) :
    pyStrip l = l := by
  unfold pyStrip
  rw [dropWhile_eq_self_of_not _ _ h,
    dropWhile_eq_self_of_not _ _ (fun c hc => h c (List.mem_reverse.mp hc)),
    List.reverse_reverse]

/-- `str.encode("ascii")`, which `base64.b64decode` applies to a `str`
argument before decoding: identity on all-ASCII strings, a raised
`UnicodeEncodeError` otherwise. -/
def asciiEncode (l : List Nat) : Option (List Nat) :=
  if l.all (fun c => c < 128) then some l else none

/-- base64 alphabet bytes are ASCII and are not whitespace. -/
theorem isB64Byte_props (c : Nat) (h : isB64Byte c = true) :
    c < 128 ∧ isPyWs c = false := by
  simp only [isB64Byte, Bool.or_eq_true, Option.isSome_iff_exists,
    decide_eq_true_eq] at h
  rcases h with ⟨n, hn⟩ | rfl
  · unfold sixOfB64Char at hn
    split_ifs at hn <;> simp [isPyWs] <;> omega
  · simp [isPyWs]

/-! ## `json.dumps` / `json.loads` of the credentials object -/

/-- The code points of `"username"`. -/
def usernameKey : PyStr := [117, 115, 101, 114, 110, 97, 109, 101]

/-- The code points of `"password"`. -/
def passwordKey : PyStr := [112, 97, 115, 115, 119, 111, 114, 100]

/-- `json.dumps({"username": u, "password": p})` with the default separators
`(", ", ": ")`: `{"key": lit, "key": lit}` as code points (all ASCII thanks
to `ensure_ascii=True`). -/
def dumps_creds (u p : PyStr) : List Nat :=
  123 :: (jsonStringLit usernameKey
    ++ (58 :: 32 :: (jsonStringLit u
      ++ (44 :: 32 :: (jsonStringLit passwordKey
        ++ (58 :: 32 :: (jsonStringLit p ++ [125])))))))

/-- The whitespace `json.loads` skips between tokens (`[ \t\n\r]`). -/
def isJsonWs (c : Nat) : Bool := c = 32 || c = 9 || c = 10 || c = 13

def skipWs (l : List Nat) : List Nat := l.dropWhile isJsonWs

/-- A JSON string literal: an opening quote, then `parseStrBody`. -/
def parseStringLit (l : List Nat) : Option (PyStr × List Nat) :=
  match l with
  | 34 :: rest => parseStrBody rest
  | _ => none

/-- One `"key": "value"` member (both the key and the value of the stored
object are string literals). -/
def parseMember (l : List Nat) : Option ((PyStr × PyStr) × List Nat) :=
  match parseStringLit (skipWs l) with
  | none => none
  | some (k, r1) =>
    match skipWs r1 with
    | 58 :: r2 =>
      match parseStringLit (skipWs r2) with
      | none => none
      | some (v, r3) => some ((k, v), r3)
    | _ => none

/-- `json.loads` restricted to the document shape `store_credentials` itself
writes: an object of exactly two string-valued members.  Any other JSON
document is mapped to a parse failure, which `load_stored_credentials`
treats identically to the exceptions it catches. -/
def parseCredsObj (l : List Nat) : Option (List (PyStr × PyStr)) :=
  match skipWs l with
  | 123 :: r1 =>
    match parseMember r1 with
    | none => none
    | some (m1, r2) =>
      match skipWs r2 with
      | 44 :: r3 =>
        match parseMember r3 with
        | none => none
        | some (m2, r4) =>
          match skipWs r4 with
          | 125 :: r5 => if skipWs r5 = [] then some [m1, m2] else none
          | _ => none
      | _ => none
  | _ => none

/-- `dict.get` on the object built from the parsed members: as in a Python
dict built key by key, a later binding of the same key wins. -/
def pyDictGet : List (PyStr × PyStr) → PyStr → Option PyStr
  | [], _ => none
  | (k', v) :: rest, k =>
    match pyDictGet rest k with
    | some r => some r
    | none => if k' = k then some v else none

theorem hexDigitLower_lt (d : Nat) (h : d < 16) : hexDigitLower d < 128 := by
  unfold hexDigitLower
  split_ifs <;> omega

theorem mem_hex4_lt (n x : Nat) (hx : x ∈ hex4 n) : x < 128 := by
  simp only [hex4, List.mem_cons, List.not_mem_nil, or_false] at hx
  rcases hx with rfl | rfl | rfl | rfl <;> exact hexDigitLower_lt _ (by omega)

theorem jsonEscapeChar_ascii (c : Nat) (x : Nat) (hx : x ∈ jsonEscapeChar c) :
    x < 128 := by
  unfold jsonEscapeChar at hx
  split_ifs at hx with h1 h2 h3 h4 h5 h6 h7 h8 h9
  · simp only [List.mem_cons, List.not_mem_nil, or_false] at hx
    rcases hx with rfl | rfl <;> omega
  · simp only [List.mem_cons, List.not_mem_nil, or_false] at hx
    rcases hx with rfl | rfl <;> omega
  · simp only [List.mem_cons, List.not_mem_nil, or_false] at hx
    rcases hx with rfl | rfl <;> omega
  · simp only [List.mem_cons, List.not_mem_nil, or_false] at hx
    rcases hx with rfl | rfl <;> omega
  · simp only [List.mem_cons, List.not_mem_nil, or_false] at hx
    rcases hx with rfl | rfl <;> omega
  · simp only [List.mem_cons, List.not_mem_nil, or_false] at hx
    rcases hx with rfl | rfl <;> omega
  · simp only [List.mem_cons, List.not_mem_nil, or_false] at hx
    rcases hx with rfl | rfl <;> omega
  · simp only [List.mem_cons, List.not_mem_nil, or_false] at hx
    rcases hx with rfl
    omega
  · simp only [List.mem_cons] at hx
    rcases hx with rfl | rfl | hx
    · omega
    · omega
    · exact mem_hex4_lt _ _ hx
  · simp only [List.cons_append, List.mem_cons, List.mem_append] at hx
    rcases hx with rfl | rfl | hx | rfl | rfl | hx
    · omega
    · omega
    · exact mem_hex4_lt _ _ hx
    · omega
    · omega
    · exact mem_hex4_lt _ _ hx

theorem jsonEscapeStr_ascii (s : PyStr) (x : Nat) (hx : x ∈ jsonEscapeStr s) :
    x < 128 := by
  induction s with
  | nil => simp [jsonEscapeStr] at hx
  | cons c rest ih =>
    rw [jsonEscapeStr] at hx
    rcases List.mem_append.mp hx with hx | hx
    · exact jsonEscapeChar_ascii c x hx
    · exact ih hx

theorem jsonStringLit_ascii (s : PyStr) (x : Nat) (hx : x ∈ jsonStringLit s) :
    x < 128 := by
  simp only [jsonStringLit, List.mem_cons, List.mem_append,
    List.not_mem_nil, or_false] at hx
  rcases hx with rfl | hx | rfl
  · omega
  · exact jsonEscapeStr_ascii s x hx
  · omega

theorem dumps_creds_ascii (u p : PyStr) :
    ∀ b ∈ dumps_creds u p, b < 128 := by
  intro b hb
  simp only [dumps_creds, List.mem_cons, List.mem_append,
    List.not_mem_nil, or_false] at hb
  rcases hb with rfl | hb | rfl | rfl | hb | rfl | rfl | hb | rfl | rfl | hb | rfl
  · omega
  · exact jsonStringLit_ascii _ _ hb
  · omega
  · omega
  · exact jsonStringLit_ascii _ _ hb
  · omega
  · omega
  · exact jsonStringLit_ascii _ _ hb
  · omega
  · omega
  · exact jsonStringLit_ascii _ _ hb
  · omega

theorem skipWs_cons_not (c : Nat) (l : List Nat) (h : isJsonWs c = false) :
    skipWs (c :: l) = c :: l := by
  unfold skipWs
  rw [List.dropWhile_cons_of_neg (by simp [h])]

theorem skipWs_cons_ws (c : Nat) (l : List Nat) (h : isJsonWs c = true) :
    skipWs (c :: l) = skipWs l := by
  unfold skipWs
  rw [List.dropWhile_cons_of_pos (by simp [h])]

theorem parseStringLit_lit (s : PyStr) (tail : List Nat)
    (hs : ∀ c ∈ s, validChar c = true) :
    parseStringLit (jsonStringLit s ++ tail) = some (s, tail) := by
  have hshape : jsonStringLit s ++ tail = 34 :: (jsonEscapeStr s ++ 34 :: tail) := by
    simp [jsonStringLit]
  rw [hshape]
  show parseStrBody (jsonEscapeStr s ++ 34 :: tail) = some (s, tail)
  exact parseStrBody_escape s tail hs

theorem parseMember_ws (c : Nat) (l : List Nat) (h : isJsonWs c = true) :
    parseMember (c :: l) = parseMember l := by
  unfold parseMember
  rw [skipWs_cons_ws c l h]

theorem parseMember_lit (k v : PyStr) (tail : List Nat)
    (hk : ∀ c ∈ k, validChar c = true) (hv : ∀ c ∈ v, validChar c = true) :
    parseMember (jsonStringLit k ++ (58 :: 32 :: (jsonStringLit v ++ tail)))
      = some ((k, v), tail) := by
  unfold parseMember
  have h34 : jsonStringLit k ++ (58 :: 32 :: (jsonStringLit v ++ tail))
      = 34 :: ((jsonEscapeStr k ++ [34]) ++ (58 :: 32 :: (jsonStringLit v ++ tail))) := by
    simp [jsonStringLit]
  rw [h34, skipWs_cons_not 34 _ (by decide), ← h34,
    parseStringLit_lit k (58 :: 32 :: (jsonStringLit v ++ tail)) hk]
  simp only
  rw [skipWs_cons_not 58 _ (by decide)]
  simp only
  rw [skipWs_cons_ws 32 _ (by decide)]
  have h34v : jsonStringLit v ++ tail
      = 34 :: ((jsonEscapeStr v ++ [34]) ++ tail) := by
    simp [jsonStringLit]
  rw [h34v, skipWs_cons_not 34 _ (by decide), ← h34v,
    parseStringLit_lit v tail hv]

theorem parse_dumps (u p : PyStr) (hu : ∀ c ∈ u, validChar c = true)
    (hp : ∀ c ∈ p, validChar c = true) :
    parseCredsObj (dumps_creds u p) = some [(usernameKey, u), (passwordKey, p)] := by
  have hukey : ∀ c ∈ usernameKey, validChar c = true := by decide
  have hpkey : ∀ c ∈ passwordKey, validChar c = true := by decide
  have hm1 := parseMember_lit usernameKey u
    (44 :: 32 :: (jsonStringLit passwordKey ++ (58 :: 32 :: (jsonStringLit p ++ [125]))))
    hukey hu
  have hm2 : parseMember (32 :: (jsonStringLit passwordKey
      ++ (58 :: 32 :: (jsonStringLit p ++ [125])))) = some ((passwordKey, p), [125]) := by
    rw [parseMember_ws 32 _ (by decide)]
    exact parseMember_lit passwordKey p [125] hpkey hp
  unfold dumps_creds parseCredsObj
  rw [skipWs_cons_not 123 _ (by decide)]
  simp only [hm1]
  rw [skipWs_cons_not 44 _ (by decide)]
  simp only [hm2]
  rw [show skipWs [125] = 125 :: [] from skipWs_cons_not 125 [] (by decide)]
  simp [skipWs]

/-! ## `Config` credential storage -/

/-- The credentials file as one invocation sees it: missing (`exists()` is
false), unreadable (opening or reading raises, caught by the bare `except`),
or readable text content. -/
inductive CredsFile : Type
  | missing
  | unreadable
  | content (text : List Nat)

/-- `Config.store_credentials`: the file content written —
`base64.b64encode(json.dumps({"username": u, "password": p}).encode("utf-8"))`.
(The code also creates the parent directory and sets the file mode to
`0o600`; those effects carry no data.) -/
def store_credentials (username password : PyStr) : List Nat :=
  b64encode (utf8Encode (dumps_creds username password))

/-- The decoding pipeline inside `load_stored_credentials`'s `try` block:
`f.read().strip()`, `base64.b64decode(...)` (which ASCII-encodes its `str`
argument first), `.decode("utf-8")`, `json.loads`, then
`creds.get("username"), creds.get("password")`.  `none` at any stage is a
raised exception, caught by the enclosing `except`. -/
def decodeCredsPipeline (text : List Nat) : Option (Option PyStr × Option PyStr) :=
  (asciiEncode (pyStrip text)).bind fun ascii =>
    (b64decode ascii).bind fun bytes =>
      (utf8Decode bytes).bind fun decoded =>
        (parseCredsObj decoded).map fun creds =>
          (pyDictGet creds usernameKey, pyDictGet creds passwordKey)

/-- `Config.load_stored_credentials`: `(None, None)` when the file is
missing, when reading fails, and when any decoding stage fails. -/
def load_stored_credentials : CredsFile → Option PyStr × Option PyStr
  | .missing => (none, none)
  | .unreadable => (none, none)
  | .content text => (decodeCredsPipeline text).getD (none, none)

/-- Python truthiness of an optional string
(`if self.auth_username and self.auth_password`): `None` and the empty
string are falsy. -/
def pyTruthy : Option PyStr → Bool
  | none => false
  | some s => !s.isEmpty

/-- `Config.get_auth_credentials`: the environment credentials when both are
truthy, otherwise whatever the stored file yields.  A total function — it
never raises. -/
def get_auth_credentials (auth_username auth_password : Option PyStr)
    (file : CredsFile) : Option PyStr × Option PyStr :=
  if pyTruthy auth_username && pyTruthy auth_password then
    (auth_username, auth_password)
  else load_stored_credentials file

theorem load_stored_content (text : List Nat) :
    load_stored_credentials (.content text)
      = (decodeCredsPipeline text).getD (none, none) := rfl

/-- C4: storing credentials and loading them back returns them unchanged,
for every pair of Unicode strings — including quotes, backslashes, spaces,
control and astral characters. -/
theorem c4_store_load_roundtrip (u p : PyStr)
    (hu : ∀ c ∈ u, validChar c = true) (hp : ∀ c ∈ p, validChar c = true) :
    load_stored_credentials (.content (store_credentials u p)) = (some u, some p) := by
  have hascii := dumps_creds_ascii u p
  have hbytes : ∀ b ∈ dumps_creds u p, b < 256 :=
    fun b hb => lt_trans (hascii b hb) (by norm_num)
  have henc : utf8Encode (dumps_creds u p) = dumps_creds u p :=
    utf8Encode_ascii _ hascii
  have hkept : ∀ c ∈ b64encode (dumps_creds u p), isB64Byte c = true :=
    b64encode_bytes _ hbytes
  unfold store_credentials
  rw [henc, load_stored_content]
  unfold decodeCredsPipeline
  rw [pyStrip_eq_self _ (fun c hc => (isB64Byte_props c (hkept c hc)).2)]
  rw [show asciiEncode (b64encode (dumps_creds u p))
      = some (b64encode (dumps_creds u p)) from by
    unfold asciiEncode
    rw [if_pos]
    rw [List.all_eq_true]
    intro c hc
    simpa using (isB64Byte_props c (hkept c hc)).1]
  rw [Option.some_bind, b64decode_encode _ hbytes, Option.some_bind,
    utf8Decode_ascii _ hascii, Option.some_bind, parse_dumps u p hu hp,
    Option.map_some']
  show (pyDictGet [(usernameKey, u), (passwordKey, p)] usernameKey,
    pyDictGet [(usernameKey, u), (passwordKey, p)] passwordKey) = (some u, some p)
  simp [pyDictGet, usernameKey, passwordKey]

/-- Witness for C4 at a concrete username containing a quote, a space and an
astral character, and a concrete password. -/
theorem c4_store_load_roundtrip_witness :
    load_stored_credentials (.content (store_credentials [34, 32, 128169] [49, 92]))
      = (some [34, 32, 128169], some [49, 92]) :=
  c4_store_load_roundtrip [34, 32, 128169] [49, 92] (by decide) (by decide)

/-- C2: `get_auth_credentials` is a total function (it never raises) that
returns the environment credentials when both are set and non-empty, falls
back to the stored file otherwise, and yields `(None, None)` when neither
source is configured. -/
theorem c2_get_auth_credentials (eu ep : Option PyStr) (file : CredsFile) :
    ((pyTruthy eu && pyTruthy ep) = true →
      get_auth_credentials eu ep file = (eu, ep))
    ∧ ((pyTruthy eu && pyTruthy ep) = false →
      get_auth_credentials eu ep file = load_stored_credentials file)
    ∧ ((pyTruthy eu && pyTruthy ep) = false →
      load_stored_credentials file = (none, none) →
      get_auth_credentials eu ep file = (none, none)) := by
  unfold get_auth_credentials
  refine ⟨fun h => by rw [if_pos h],
    fun h => by rw [if_neg (by simp [h])],
    fun h h2 => by rw [if_neg (by simp [h]), h2]⟩

/-- Witness for C2, the spec's example: stored file holds `("a", "1")`, the
environment holds `("b", "2")` — the effective credentials are `("b", "2")`. -/
theorem c2_get_auth_credentials_witness :
    get_auth_credentials (some [98]) (some [50])
      (.content (store_credentials [97] [49])) = (some [98], some [50]) :=
  (c2_get_auth_credentials (some [98]) (some [50])
    (.content (store_credentials [97] [49]))).1 (by decide)

/-- C3 counterexample: the claim says a corrupt overrides file never
propagates as an unhandled crash, but `_load_local_config` calls
`json.loads` with no handler, so `load_devices` — and with it the `list` and
`store_device_ip` commands — raises on a malformed `devices.json`. -/
theorem c3_corrupt_overrides_crash :
    load_devices [] OvFile.malformed initProcState ⟨[]⟩ = Except.error () := rfl

/-- C3 (amended): a malformed credentials file is recovered by treating it
as absent — `load_stored_credentials` returns `(None, None)` on a missing
file, an unreadable file, and content whose decoding fails at any stage —
but a malformed overrides file is NOT recovered: `_load_local_config`
propagates the `json.loads` error and `load_devices` raises. -/
theorem c3_malformed_local_files (text : List Nat) (current : OverrideMap)
    (cloud : List Device) (p : ProcState) (m : Manager) :
    (load_stored_credentials .missing = (none, none))
    ∧ (load_stored_credentials .unreadable = (none, none))
    ∧ (decodeCredsPipeline text = none →
        load_stored_credentials (.content text) = (none, none))
    ∧ (load_local_config .malformed current = .error ())
    ∧ (load_devices cloud .malformed p m = .error ()) := by
  refine ⟨rfl, rfl, fun h => ?_, rfl, rfl⟩
  rw [load_stored_content, h]
  rfl

/-- Witness for C3's amended statement at concrete garbage content
(`"garbage"`, which fails base64 decoding) and a concrete manager state. -/
theorem c3_malformed_local_files_witness :
    load_stored_credentials (.content [103, 97, 114, 98, 97, 103, 101])
      = (none, none) :=
  (c3_malformed_local_files [103, 97, 114, 98, 97, 103, 101] [] []
    initProcState ⟨[]⟩).2.2.1 (by rfl)

/-! ## IP address validation (`store_device_ip` command)

The command checks
`re.match(r"^(?:(?:25[0-5]|2[0-4][0-9]|[01]?[0-9][0-9]?)\.){3}(?:25[0-5]|2[0-4][0-9]|[01]?[0-9][0-9]?)$", ip_address)`.
The three alternatives match only digit strings, never a dot, so a match of
the anchored pattern decomposes exactly at the dots: the string splits into
four dot-separated groups, each fully matching the alternation.  Python's
`$` (without `re.MULTILINE`) also matches just before one newline at the
very end of the string.  Strings are code-point lists as elsewhere
(`46` = `.`, `10` = `\n`, `48`–`57` = digits). -/

/-- The alternative `25[0-5]` as a full-token match. -/
def octetAlt1 (cs : PyStr) : Bool :=
  match cs with
  | [a, b, c] => a == 50 && b == 53 && (48 ≤ c && c ≤ 53)
  | _ => false

/-- The alternative `2[0-4][0-9]` as a full-token match. -/
def octetAlt2 (cs : PyStr) : Bool :=
  match cs with
  | [a, b, c] => a == 50 && (48 ≤ b && b ≤ 52) && (48 ≤ c && c ≤ 57)
  | _ => false

def isDigitCp (c : Nat) : Bool := 48 ≤ c && c ≤ 57

/-- The alternative `[01]?[0-9][0-9]?` as a full-token match: one digit; two
digits (either with `[01]?` empty, which allows any first digit, or with it
consuming a leading `0`/`1` — the union is any two digits); or `[01]`
followed by two digits. -/
def octetAlt3 (cs : PyStr) : Bool :=
  match cs with
  | [a] => isDigitCp a
  | [a, b] => isDigitCp a && isDigitCp b
  | [a, b, c] => (a == 48 || a == 49) && isDigitCp b && isDigitCp c
  | _ => false

/-- One octet token of the pattern. -/
def octetMatch (cs : PyStr) : Bool := octetAlt1 cs || octetAlt2 cs || octetAlt3 cs

/-- The body `(?:OCT\.){3}OCT` matched against a whole string: exactly four
dot-separated groups, each matching the octet alternation. -/
def quadMatch (s : PyStr) : Bool :=
  match s.splitOn 46 with
  | [a, b, c, d] => octetMatch a && octetMatch b && octetMatch c && octetMatch d
  | _ => false

/-- `re.match(ip_pattern, s)` truthiness: the anchored body, with `$` also
matching just before a single trailing newline. -/
def ip_pattern_match (s : PyStr) : Bool :=
  quadMatch s || ((s.getLast? == some 10) && quadMatch s.dropLast)

/-- Numeric value of a digit string. -/
def octetVal (cs : PyStr) : Nat := cs.foldl (fun acc c => acc * 10 + (c - 48)) 0

/-- Modelled from the claim's words, for comparison with the code's regex:
an IPv4 dotted-quad — four dot-separated octets, each one to three decimal
digits with numeric value at most 255. -/
def specOctet (cs : PyStr) : Bool :=
  decide (1 ≤ cs.length) && decide (cs.length ≤ 3)
    && cs.all isDigitCp && decide (octetVal cs ≤ 255)

/-- Modelled from the claim's words: the dotted-quad predicate. -/
def specDottedQuad (s : PyStr) : Bool :=
  match s.splitOn 46 with
  | [a, b, c, d] => specOctet a && specOctet b && specOctet c && specOctet d
  | _ => false

theorem octetMatch_iff_specOctet (cs : PyStr) :
    octetMatch cs = true ↔ specOctet cs = true := by
  match cs with
  | [] => decide
  | [a] =>
    simp [octetMatch, octetAlt1, octetAlt2, octetAlt3, specOctet, octetVal,
      isDigitCp]
    omega
  | [a, b] =>
    simp [octetMatch, octetAlt1, octetAlt2, octetAlt3, specOctet, octetVal,
      isDigitCp]
    omega
  | [a, b, c] =>
    simp [octetMatch, octetAlt1, octetAlt2, octetAlt3, specOctet, octetVal,
      isDigitCp]
    omega
  | a :: b :: c :: d :: rest =>
    constructor
    · intro h
      simp [octetMatch, octetAlt1, octetAlt2, octetAlt3] at h
    · intro h
      exfalso
      simp [specOctet, List.length_cons] at h

theorem quadAux (gs : List PyStr) :
    (match gs with
     | [a, b, c, d] => octetMatch a && octetMatch b && octetMatch c && octetMatch d
     | _ => false) = true
    ↔ (match gs with
     | [a, b, c, d] => specOctet a && specOctet b && specOctet c && specOctet d
     | _ => false) = true := by
  match gs with
  | [a, b, c, d] => simp [Bool.and_eq_true, octetMatch_iff_specOctet]
  | [] => exact Iff.rfl
  | [_] => exact Iff.rfl
  | [_, _] => exact Iff.rfl
  | [_, _, _] => exact Iff.rfl
  | _ :: _ :: _ :: _ :: _ :: _ => exact Iff.rfl

theorem quadMatch_iff_specDottedQuad (s : PyStr) :
    quadMatch s = true ↔ specDottedQuad s = true := by
  unfold quadMatch specDottedQuad
  exact quadAux (s.splitOn 46)

theorem ip_match_iff (s : PyStr) :
    ip_pattern_match s = true ↔
      (specDottedQuad s = true
        ∨ (s.getLast? = some 10 ∧ specDottedQuad s.dropLast = true)) := by
  unfold ip_pattern_match
  simp [Bool.or_eq_true, Bool.and_eq_true, quadMatch_iff_specDottedQuad,
    beq_iff_eq]

/-! ## `HVACManager.store_device_ip` and the command around it -/

/-- Python dict assignment `d[k] = v` on an association list: replace the
binding in place if the key exists, append otherwise. -/
def pyDictSet {α : Type} : List (String × α) → String → α → List (String × α)
  | [], k, v => [(k, v)]
  | (k', v') :: rest, k, v =>
    if k' = k then (k, v) :: rest else (k', v') :: pyDictSet rest k v

/-- The nested mutation of `HVACManager.store_device_ip`:
`if serial not in data["devices"]: data["devices"][serial] = {}` followed by
`data["devices"][serial]["ip_address"] = ip_address`. -/
def upsert_ip (devices : OverrideMap) (serial ip : String) : OverrideMap :=
  let devices1 :=
    if (pyGet devices serial).isNone then pyDictSet devices serial [] else devices
  pyDictSet devices1 serial
    (pyDictSet ((pyGet devices1 serial).getD []) "ip_address" ip)

/-- The common path of `HVACManager.store_device_ip` once `data` is in hand:
`data["devices"]` (a `KeyError` if absent), the upsert, and the full rewrite
of the file with `json.dump(data, f, indent=2)`. -/
def store_into (data : List (String × OverrideMap)) (serial ip : String) :
    Except Unit (List (String × OverrideMap)) :=
  match pyGet data "devices" with
  | none => .error ()
  | some devices => .ok (pyDictSet data "devices" (upsert_ip devices serial ip))

/-- `HVACManager.store_device_ip`: load the existing override file — raising
on malformed JSON — or start from `{"devices": {}}`, upsert, write back
whole.  The result is the document written to the file. -/
def store_device_ip_method (file : OvFile) (serial ip : String) :
    Except Unit (List (String × OverrideMap)) :=
  match file with
  | .malformed => .error ()
  | .missing => store_into [("devices", [])] serial ip
  | .parsed top => store_into top serial ip

/-- The identification of the code-point-list string model with Lean's
`String`, used where the validated IP text is stored as a value. -/
def pyStrToString (l : PyStr) : String := String.mk (l.map Char.ofNat)

/-- Code points of a Lean string literal (for readable concrete inputs). -/
def pyOfStr (s : String) : PyStr := s.toList.map Char.toNat

/-- The validation-and-store tail of the `store_device_ip` command: an IP
that fails the regex prints an error and raises `typer.Exit(1)` before any
write — the file stays as it was; a valid IP runs
`HVACManager.store_device_ip`, which rewrites the file (`none` as exit code
models the unhandled crash when the existing file is malformed or lacks
`"devices"`, which also writes nothing). -/
def store_ip_tail (file : OvFile) (serial : String) (ip : PyStr) :
    Option Nat × OvFile :=
  if ip_pattern_match ip then
    match store_device_ip_method file serial (pyStrToString ip) with
    | .ok top => (some 0, .parsed top)
    | .error () => (none, file)
  else (some 1, file)

theorem pyGet_pyDictSet_self {α : Type} (d : List (String × α)) (k : String)
    (v : α) : pyGet (pyDictSet d k v) k = some v := by
  induction d with
  | nil => simp [pyDictSet, pyGet]
  | cons kv rest ih =>
    obtain ⟨k', v'⟩ := kv
    by_cases h : k' = k
    · simp [pyDictSet, h, pyGet]
    · simp [pyDictSet, h, pyGet, ih]

theorem pyGet_pyDictSet_ne {α : Type} (d : List (String × α)) (k k' : String)
    (v : α) (h : k' ≠ k) : pyGet (pyDictSet d k v) k' = pyGet d k' := by
  induction d with
  | nil =>
    simp only [pyDictSet, pyGet]
    rw [if_neg (fun he => h he.symm)]
  | cons kv rest ih =>
    obtain ⟨k0, v0⟩ := kv
    by_cases h0 : k0 = k
    · subst h0
      have hne : ¬(k0 = k') := fun he => h he.symm
      simp [pyDictSet, pyGet, hne]
    · simp [pyDictSet, h0, pyGet, ih]

/-- C5 counterexample: the code's anchored regex also matches
`"1.2.3.4\n"` — Python's `$` matches before a single trailing newline — so
the flow accepts a string that is not an IPv4 dotted-quad, refuting the
claimed "if and only if". -/
theorem c5_trailing_newline_accepted :
    ip_pattern_match (pyOfStr "1.2.3.4\n") = true
      ∧ specDottedQuad (pyOfStr "1.2.3.4\n") = false := by decide

/-- C5 (amended): the flow accepts an IP string iff it is a dotted-quad of
one-to-three-digit octets each at most 255, or such a quad followed by one
trailing newline (an artifact of Python's `$`); the spec's four examples
behave as claimed; and a rejected IP exits with code 1 with the overrides
file untouched. -/
theorem c5_ip_validation (s : PyStr) (file : OvFile) (serial : String) :
    (ip_pattern_match s = true ↔
      (specDottedQuad s = true
        ∨ (s.getLast? = some 10 ∧ specDottedQuad s.dropLast = true)))
    ∧ (ip_pattern_match s = false → store_ip_tail file serial s = (some 1, file))
    ∧ ip_pattern_match (pyOfStr "192.168.1.1") = true
    ∧ ip_pattern_match (pyOfStr "256.1.1.1") = false
    ∧ ip_pattern_match (pyOfStr "1.2.3") = false
    ∧ ip_pattern_match (pyOfStr "abc") = false := by
  refine ⟨ip_match_iff s, fun h => ?_, by decide, by decide, by decide, by decide⟩
  unfold store_ip_tail
  rw [h]
  rfl

/-- Witness for C5: the invalid IP `"abc"` against a missing overrides file
exits 1 and leaves the file missing. -/
theorem c5_ip_validation_witness :
    store_ip_tail OvFile.missing "SN1" (pyOfStr "abc") = (some 1, OvFile.missing) :=
  (c5_ip_validation (pyOfStr "abc") OvFile.missing "SN1").2.1 (by decide)

/-- C6: `HVACManager.store_device_ip` upserts only the `ip_address` field of
the entry keyed by the given serial and writes the whole document back: all
other top-level keys, the entries of every other serial, and every other
field of that serial's entry read back unchanged, while the entry's
`ip_address` reads back as the stored value; when no file exists the
document is built from `{"devices": {}}`. -/
theorem c6_store_upsert (top : List (String × OverrideMap)) (devices : OverrideMap)
    (serial ip : String) (htop : pyGet top "devices" = some devices) :
    (store_device_ip_method (.parsed top) serial ip
      = .ok (pyDictSet top "devices" (upsert_ip devices serial ip)))
    ∧ (∀ k, k ≠ "devices" →
        pyGet (pyDictSet top "devices" (upsert_ip devices serial ip)) k = pyGet top k)
    ∧ (∀ s', s' ≠ serial →
        pyGet (upsert_ip devices serial ip) s' = pyGet devices s')
    ∧ (∀ f, f ≠ "ip_address" →
        pyGet ((pyGet (upsert_ip devices serial ip) serial).getD []) f
          = pyGet ((pyGet devices serial).getD []) f)
    ∧ (pyGet ((pyGet (upsert_ip devices serial ip) serial).getD []) "ip_address"
        = some ip)
    ∧ (store_device_ip_method .missing serial ip
        = .ok [("devices", upsert_ip [] serial ip)]) := by
  refine ⟨?_, ?_, ?_, ?_, ?_, ?_⟩
  · simp [store_device_ip_method, store_into, htop]
  · intro k hk
    exact pyGet_pyDictSet_ne top "devices" k _ hk
  · intro s' hs'
    unfold upsert_ip
    by_cases hnone : (pyGet devices serial).isNone
    · rw [if_pos hnone]
      rw [pyGet_pyDictSet_ne _ serial s' _ hs', pyGet_pyDictSet_ne _ serial s' _ hs']
    · rw [if_neg hnone]
      rw [pyGet_pyDictSet_ne _ serial s' _ hs']
  · intro f hf
    unfold upsert_ip
    by_cases hnone : (pyGet devices serial).isNone
    · rw [if_pos hnone]
      rw [pyGet_pyDictSet_self, pyGet_pyDictSet_self]
      simp only [Option.getD_some]
      rw [pyGet_pyDictSet_ne _ "ip_address" f _ hf]
      have : pyGet devices serial = none := Option.isNone_iff_eq_none.mp hnone
      simp [this, pyGet]
    · rw [if_neg hnone]
      rw [pyGet_pyDictSet_self]
      simp only [Option.getD_some]
      rw [pyGet_pyDictSet_ne _ "ip_address" f _ hf]
  · unfold upsert_ip
    by_cases hnone : (pyGet devices serial).isNone
    · rw [if_pos hnone]
      rw [pyGet_pyDictSet_self]
      simp only [Option.getD_some]
      rw [pyGet_pyDictSet_self]
    · rw [if_neg hnone]
      rw [pyGet_pyDictSet_self]
      simp only [Option.getD_some]
      rw [pyGet_pyDictSet_self]
  · simp [store_device_ip_method, store_into, pyGet, pyDictSet]

/-- Witness for C6 at a concrete two-serial document with an extra top-level
key and an extra field on the updated entry. -/
theorem c6_store_upsert_witness :
    pyGet ((pyGet (upsert_ip
        [("A", [("ip_address", "1.1.1.1"), ("note", "x")]), ("B", [("ip_address", "2.2.2.2")])]
        "A" "9.9.9.9") "A").getD []) "note" = pyGet ((pyGet
        [("A", [("ip_address", "1.1.1.1"), ("note", "x")]), ("B", [("ip_address", "2.2.2.2")])]
        "A").getD []) "note" :=
  (c6_store_upsert
    [("devices", [("A", [("ip_address", "1.1.1.1"), ("note", "x")]),
      ("B", [("ip_address", "2.2.2.2")])])]
    [("A", [("ip_address", "1.1.1.1"), ("note", "x")]), ("B", [("ip_address", "2.2.2.2")])]
    "A" "9.9.9.9" (by decide)).2.2.2.1 "note" (by decide)

/-! ## `list --verbose` row rendering -/

/-- One row of the verbose device table, in column order. -/
structure Row where
  name : String
  serial : String
  temp : String
  mode : String
  fan_speed : String
  status : String
  wifi : String
  ip_address : String
  deriving DecidableEq

/-- A `PyKumo` device as the `list` command calls it: each accessor can
independently raise (`.error`) or return `None` (`.ok none`). -/
structure TelemetryDevice where
  get_name : Except Unit String
  get_serial : Except Unit String
  update_status : Except Unit Unit
  get_current_temperature : Except Unit (Option Int)
  get_mode : Except Unit (Option String)
  get_fan_speed : Except Unit (Option String)
  get_runstate : Except Unit (Option String)
  get_wifi_rssi : Except Unit (Option Int)

/-- `f"{temp}°F" if temp is not None else "N/A"`. -/
def renderTemp : Option Int → String
  | some t => toString t ++ "°F"
  | none => "N/A"

/-- Python's `x or "N/A"` on an optional string: `None` and the empty string
are falsy. -/
def orNA : Option String → String
  | some s => if s.isEmpty then "N/A" else s
  | none => "N/A"

/-- `f"{wifi_rssi}dBm" if wifi_rssi is not None else "N/A"`. -/
def renderWifi : Option Int → String
  | some w => toString w ++ "dBm"
  | none => "N/A"

/-- The stored-IP column: `manager.local_device_config[serial].get("ip_address", "N/A")`
when the serial is present, else `"N/A"`. -/
def ip_cell (cfg : OverrideMap) (serial : String) : String :=
  match pyGet cfg serial with
  | some e => (pyGet e "ip_address").getD "N/A"
  | none => "N/A"

/-- The body of the per-device loop of `list --verbose` (the outer `try`
block): name and serial, then the temperature under its own inner
`try`/`except` (covering `update_status` and `get_current_temperature`
together), then mode, fan speed, run state and wifi under one shared inner
`try`/`except` — its handler sets all four to `"N/A"` — then the stored IP. -/
def rowTry (cfg : OverrideMap) (d : TelemetryDevice) : Except Unit Row := do
  let device_name ← d.get_name
  let device_serial ← d.get_serial
  let temp_str :=
    match (do
      let _ ← d.update_status
      d.get_current_temperature : Except Unit (Option Int)) with
    | .ok t => renderTemp t
    | .error _ => "N/A"
  let group :=
    match (do
      let m ← d.get_mode
      let f ← d.get_fan_speed
      let r ← d.get_runstate
      let w ← d.get_wifi_rssi
      pure (m, f, r, w) : Except Unit (Option String × Option String × Option String × Option Int)) with
    | .ok (m, f, r, w) => (orNA m, orNA f, orNA r, renderWifi w)
    | .error _ => ("N/A", "N/A", "N/A", "N/A")
  pure ⟨device_name, device_serial, temp_str, group.1, group.2.1, group.2.2.1,
    group.2.2.2, ip_cell cfg device_serial⟩

/-- One device's row: the outer `try`; its `except` handler builds an
`Error` row but itself calls `device.get_name()` / `get_serial()` again
(`hasattr` is true for `PyKumo` objects), so a failure there propagates. -/
def rowFor (cfg : OverrideMap) (d : TelemetryDevice) : Except Unit Row :=
  match rowTry cfg d with
  | .ok r => .ok r
  | .error _ => do
    let n ← d.get_name
    let s ← d.get_serial
    pure ⟨n, s, "Error", "Error", "Error", "Error", "Error", "Error"⟩

/-- C7 counterexample: with `get_mode` raising while every other accessor
succeeds, the row shows the real temperature but `"N/A"` for ALL of mode,
fan speed, run state and wifi — the fan speed does not show its real value
`"auto"`, refuting the claimed per-field independence. -/
theorem c7_mode_failure_blanks_group :
    rowFor []
      ⟨.ok "Living Room", .ok "S1", .ok (), .ok (some 72), .error (),
        .ok (some "auto"), .ok (some "cooling"), .ok (some (-40))⟩
      = .ok ⟨"Living Room", "S1", "72°F", "N/A", "N/A", "N/A", "N/A", "N/A"⟩
    ∧ ("N/A" : String) ≠ "auto" := by
  refine ⟨rfl, by decide⟩

/-- C7 (amended): the temperature degrades independently — when `get_mode`
raises and all other accessors succeed, the row still shows the really
fetched temperature and stored IP, but mode, fan speed, run state and wifi
fall back to `"N/A"` as a group; no exception escapes (the result is `.ok`). -/
theorem c7_verbose_row_degrades (cfg : OverrideMap) (name serial : String)
    (temp : Option Int) (fan run : Option String) (wifi : Option Int) :
    rowFor cfg ⟨.ok name, .ok serial, .ok (), .ok temp, .error (),
        .ok fan, .ok run, .ok wifi⟩
      = .ok ⟨name, serial, renderTemp temp, "N/A", "N/A", "N/A", "N/A",
        ip_cell cfg serial⟩ := rfl

/-! ## Device resolution in `store_device_ip` -/

/-- `HVACManager.get_device_by_serial`: first device with that serial. -/
def get_device_by_serial (devices : List Device) (serial : String) : Option Device :=
  devices.find? (fun device => device.serial == serial)

/-- Python's `str.lower()` (ASCII case folding suffices for the names
compared here). -/
def pyLower (s : String) : String := ⟨s.data.map Char.toLower⟩

/-- `HVACManager.get_device_by_name`: case-insensitive exact match, first
wins. -/
def get_device_by_name (devices : List Device) (name : String) : Option Device :=
  devices.find? (fun device => pyLower device.name == pyLower name)

/-- The command's identifier lookup: by serial, then by name, else
`Device not found` and exit 1. -/
def byIdent (devices : List Device) (ident : String) : Except Unit Device :=
  match get_device_by_serial devices ident with
  | some d => .ok d
  | none =>
    match get_device_by_name devices ident with
    | some d => .ok d
    | none => .error ()

/-- Value of a non-empty all-digit string. -/
def pyIntDigits (cs : List Char) : Option Int :=
  if cs ≠ [] ∧ cs.all Char.isDigit then
    some (cs.foldl (fun acc c => acc * 10 + ((c.toNat : Int) - 48)) 0)
  else none

/-- `int(choice)` as the command uses it: surrounding whitespace, an
optional sign, then decimal digits; anything else is a `ValueError`. -/
def pyInt (s : String) : Option Int :=
  let t := ((s.toList.dropWhile Char.isWhitespace).reverse.dropWhile
    Char.isWhitespace).reverse
  match t with
  | '-' :: ds => (pyIntDigits ds).map (fun n => -n)
  | '+' :: ds => pyIntDigits ds
  | ds => pyIntDigits ds

/-- The interactive branch of `store_device_ip` (inside
`if not device_identifier:`): list the devices (exit 1 when there are
none), prompt, first try `int(choice) - 1` as an index into the listing
(using that device's serial), fall back to treating the choice as a
serial/name when `int` raises ValueError; the resolved identifier then
goes through the serial-then-name lookup. -/
def prompt_select (devices : List Device) (promptChoice : String) :
    Except Unit Device :=
  if devices.isEmpty then .error ()
  else
    match pyInt promptChoice with
    | some n =>
      if h : 1 ≤ n ∧ (n - 1).toNat < devices.length then
        byIdent devices (devices.get ⟨(n - 1).toNat, h.2⟩).serial
      else .error ()
    | none => byIdent devices promptChoice

/-- The device-selection logic of the `store_device_ip` command. The guard
`if not device_identifier:` is Python truthiness, so both an omitted
argument (typer's `None` default) and an empty-string argument take the
interactive prompt path; any non-empty argument goes straight to the
serial-then-name lookup with no index interpretation. -/
def resolve_identifier (devices : List Device) (argIdent : Option String)
    (promptChoice : String) : Except Unit Device :=
  match argIdent with
  | some ident =>
    if ident = "" then prompt_select devices promptChoice
    else byIdent devices ident
  | none => prompt_select devices promptChoice

/-- C8 counterexample: with three devices of which the third is literally
named `"2"`, invoking the command WITH identifier `"2"` does not select
the second device — no index interpretation happens on the argument; the
serial lookup fails and the name lookup picks the device named `"2"`. -/
theorem c8_arg_identifier_matches_name :
    resolve_identifier
      [⟨"S1", "Alpha", "a"⟩, ⟨"S2", "Beta", "b"⟩, ⟨"S3", "2", "c"⟩]
      (some "2") "" = .ok ⟨"S3", "2", "c"⟩
    ∧ (⟨"S3", "2", "c"⟩ : Device) ≠ ⟨"S2", "Beta", "b"⟩ := by
  refine ⟨rfl, by decide⟩

/-- C8 (amended): numeric-index interpretation happens only at the
interactive prompt path, which is taken when the identifier argument is
missing or empty (the guard is Python truthiness): when the argument is
absent and three devices are listed, entering `"2"` at the prompt selects
the second listed device (whatever the devices are named, so also when one
is literally named `"2"`); a NON-empty identifier passed as an argument is
resolved purely by serial-then-name lookup; and an empty-string argument
behaves exactly as an omitted one. -/
theorem c8_prompt_index_selects_second (d1 d2 d3 : Device)
    (h12 : d1.serial ≠ d2.serial) :
    (resolve_identifier [d1, d2, d3] none "2" = .ok d2)
    ∧ (∀ ident, ident ≠ "" → resolve_identifier [d1, d2, d3] (some ident) "2"
        = byIdent [d1, d2, d3] ident)
    ∧ (∀ choice, resolve_identifier [d1, d2, d3] (some "") choice
        = resolve_identifier [d1, d2, d3] none choice) := by
  refine ⟨?_, fun ident h => ?_, fun choice => rfl⟩
  · have hbeq : (d1.serial == d2.serial) = false := beq_eq_false_iff_ne.mpr h12
    show prompt_select [d1, d2, d3] "2" = .ok d2
    unfold prompt_select
    rw [show pyInt "2" = some 2 from by decide]
    simp only [List.isEmpty, Bool.false_eq_true, if_false]
    rw [dif_pos (by constructor <;> simp)]
    simp [byIdent, get_device_by_serial, List.find?, hbeq]
  · show (if ident = "" then prompt_select [d1, d2, d3] "2"
        else byIdent [d1, d2, d3] ident) = byIdent [d1, d2, d3] ident
    rw [if_neg h]

/-- Witness for C8's amended statement: three concrete devices, the third
literally named `"2"` — the prompt choice `"2"` picks the second, and the
non-empty argument `"Beta"` goes through the serial-then-name lookup. -/
theorem c8_prompt_index_selects_second_witness :
    (resolve_identifier
      [⟨"S1", "Alpha", "a"⟩, ⟨"S2", "Beta", "b"⟩, ⟨"S3", "2", "c"⟩]
      none "2" = .ok ⟨"S2", "Beta", "b"⟩)
    ∧ (resolve_identifier
      [⟨"S1", "Alpha", "a"⟩, ⟨"S2", "Beta", "b"⟩, ⟨"S3", "2", "c"⟩]
      (some "Beta") "2" = byIdent
      [⟨"S1", "Alpha", "a"⟩, ⟨"S2", "Beta", "b"⟩, ⟨"S3", "2", "c"⟩] "Beta") :=
  ⟨(c8_prompt_index_selects_second ⟨"S1", "Alpha", "a"⟩ ⟨"S2", "Beta", "b"⟩
      ⟨"S3", "2", "c"⟩ (by decide)).1,
   (c8_prompt_index_selects_second ⟨"S1", "Alpha", "a"⟩ ⟨"S2", "Beta", "b"⟩
      ⟨"S3", "2", "c"⟩ (by decide)).2.1 "Beta" (by decide)⟩

end Hvac
